import Mathlib

/-!
Shallow embedding of the combinatorial threshold-analysis engine of the
Pattern-Recognition repository.

Source files embedded here:
* `src/src/analysis_engine.py` — `analyze_data_combinations` (in-memory tabular
  backend), `analyze_data_combinations_db` (query-pushdown backend),
  `calculate_max_run`;
* `src/src/filter_manager.py` — `generate_sql_condition`;
* `src/config.py` — `calculate_max_ranges`, `MAX_TOTAL_COMBINATIONS`;
* `src/src/app.py` (range construction, lines 1534-1546) — the equal division
  of `[min, max]` into N numeric ranges.

Modelling conventions:
* Python floats are modelled as rationals (`ℚ`); cell values are `Val` (a
  number or a string); a missing cell models NaN/NULL.  Pandas comparison
  masks are `false` on NaN and SQL comparisons are not satisfied on NULL, so
  both evaluators return `false` on a missing cell.
* A pandas DataFrame is a column list plus a list of rows in their stored
  order; a row is an association list from column name to value.  The
  database relation of the query backend is the same data.  The query
  backend's `LIMIT 20` sample query has no ORDER BY, so the store is free
  to return any up-to-20 of the matching rows in any order: `LimitSample`
  captures every reply the issued SQL admits, and `mkRowDbWith` assembles a
  result row from one such reply.  The executable pipeline `analyzeDb` runs
  under one particular legitimate store behavior (a scan in stored row
  order, `mkRowDb`); nothing in the issued SQL pins that behavior down.
* A raised Python exception (KeyError on a missing dict key, a failing
  query) makes the embedded function return `none`.
* Threshold configurations are Python dicts tagged by their `"type"` string;
  they are embedded as a closed inductive with one constructor per kind the
  engine matches on, a `valueThreshold` constructor for any type string
  carrying a `"value"` key (the engine's mean/median/custom fallback), and an
  `otherKind` constructor for an unrecognized type string with no `"value"`
  key.
* Date-typed columns are outside the embedded fragment: no claim settled in
  this development depends on the date branches, which are implemented
  symmetrically in both backends.
* Result rows keep the fields the verified properties are about
  (matching-row count, per-result-column max-run, the identifier sample and
  its overflow count).  The remaining statistics (mean, sum, count, standard
  deviation, median, min, max, and their rounding to 4 decimal places) and
  the human-readable description strings are presentational and not carried.
-/

namespace PatternRec

/-- A cell value: a numeric value or a (categorical / identifier) string. -/
inductive Val where
  | num (q : ℚ)
  | str (s : String)
deriving DecidableEq

/-- A row: association list from column name to value; a column absent from
the list holds NaN/NULL in that row. -/
abbrev Row := List (String × Val)

/-- Look a column up in a row (`none` models NaN/NULL). -/
def Row.get (r : Row) (c : String) : Option Val :=
  (List.find? (fun p => p.1 == c) r).map (fun p => p.2)

/-- The numeric content of a cell, if any. -/
def getNum (r : Row) (c : String) : Option ℚ :=
  match Row.get r c with
  | some (Val.num q) => some q
  | _ => none

/-- A data snapshot: the column list and the rows in stored order. -/
structure DataFrame where
  cols : List String
  rows : List Row
deriving DecidableEq

/-- Column types as resolved by ingestion (`is_date_column` /
`is_numeric_dtype` in the tabular backend, the `column_types` map in the
query backend).  Date columns are outside the embedded fragment. -/
inductive ColType where
  | numeric
  | categorical
deriving DecidableEq

/-- Comparison operators of numeric conditions (`condition["operator"]`
strings `">"`, `"<"`, `">="`, `"<="`). -/
inductive NumOp where
  | gt
  | lt
  | ge
  | le
deriving DecidableEq

/-- Per-column threshold configuration (the `thresholds[col]` dict, tagged by
its `"type"` string).

`valueThreshold t v` stands for any dict whose type string `t` is none of
`"range"`, `"multiple_greater_than"`, `"multiple_less_than"`,
`"multiple_conditions_or"`, `"categorical"` but which carries a `"value"` key
(the engine's `else:  # mean, median, custom` branch reads it);
`otherKind t` stands for such a dict without a `"value"` key, so that branch
raises KeyError on it. -/
inductive ThresholdConfig where
  | range (ranges : List (ℚ × ℚ))
  | multipleGreaterThan (values : List ℚ)
  | multipleLessThan (values : List ℚ)
  | multipleConditionsOr (conditions : List (NumOp × ℚ))
  | valueThreshold (typeName : String) (value : ℚ)
  | categorical (valueGroups : List (List Val))
  | otherKind (typeName : String)
deriving DecidableEq

/-- One condition variant for one column, as stored in the tabular backend's
`condition_variations` lists: a range tuple with its 1-based id and the total
range count, a single comparison, a categorical membership test, or an
OR-group (the list-of-tuples entry added for `multiple_conditions_or`). -/
inductive CondItem where
  | range (start stop : ℚ) (rangeId totalRanges : ℕ)
  | cmp (op : NumOp) (v : ℚ)
  | isin (vals : List Val)
  | orGroup (conds : List (NumOp × ℚ))
deriving DecidableEq

/-- Outcome of the tabular backend's per-column variant generation
(`analyze_data_combinations`, lines 350-445): `vars l` when a branch appends
the list `l` to `condition_variations`; `skipped` when no branch matches so
nothing is appended and the column silently drops out of the product;
`crash` when the fallback branch reads the missing `"value"` key and the run
dies with KeyError. -/
inductive GenResult where
  | crash
  | skipped
  | vars (l : List CondItem)
deriving DecidableEq

/-- Tabular backend, per-column variant generation
(`analyze_data_combinations`, lines 388-445, numeric and categorical
branches). -/
def genTab : ColType → ThresholdConfig → GenResult
  | ColType.numeric, ThresholdConfig.range rs =>
      GenResult.vars ((rs.enum).map fun p =>
        CondItem.range p.2.1 p.2.2 (p.1 + 1) rs.length)
  | ColType.numeric, ThresholdConfig.multipleGreaterThan vs =>
      GenResult.vars (vs.map fun v => CondItem.cmp NumOp.gt v)
  | ColType.numeric, ThresholdConfig.multipleLessThan vs =>
      GenResult.vars (vs.map fun v => CondItem.cmp NumOp.lt v)
  | ColType.numeric, ThresholdConfig.multipleConditionsOr cs =>
      GenResult.vars ((cs.map fun c => CondItem.cmp c.1 c.2) ++ [CondItem.orGroup cs])
  | ColType.numeric, ThresholdConfig.valueThreshold _ v =>
      GenResult.vars [CondItem.cmp NumOp.ge v, CondItem.cmp NumOp.lt v]
  | ColType.numeric, ThresholdConfig.categorical _ => GenResult.crash
  | ColType.numeric, ThresholdConfig.otherKind _ => GenResult.crash
  | ColType.categorical, ThresholdConfig.categorical groups =>
      if groups = [] then GenResult.skipped
      else GenResult.vars ((groups.filter (fun g => !g.isEmpty)).map fun g => CondItem.isin g)
  | ColType.categorical, _ => GenResult.skipped

/-- SQL condition fragment produced by `generate_sql_condition`
(`filter_manager.py`), embedded structurally: `cmpS` is `"col" op v`,
`rangeS` is `"col" >= s AND "col" < e` (or `<= e` when `lastIncl`), `orS` is
the parenthesised OR of comparisons, `inS` is `"col" IN (...)`. -/
inductive SqlCond where
  | cmpS (op : NumOp) (v : ℚ)
  | rangeS (start stop : ℚ) (lastIncl : Bool)
  | orS (conds : List (NumOp × ℚ))
  | inS (vals : List Val)
deriving DecidableEq

/-- `generate_sql_condition` (`filter_manager.py`, lines 4-85), numeric and
categorical branches.  The numeric fallback (`else:  # mean, median, custom`)
reads `threshold_config["value"]`, so a numeric column whose configuration
kind is `multiple_greater_than`, `multiple_less_than`, `categorical` or
unrecognized raises KeyError there (those dicts have no `"value"` key):
modelled as `none`. -/
def generate_sql_condition : ColType → ThresholdConfig → Option (List SqlCond)
  | ColType.numeric, ThresholdConfig.range rs =>
      some ((rs.enum).map fun p => SqlCond.rangeS p.2.1 p.2.2 (p.1 + 1 = rs.length))
  | ColType.numeric, ThresholdConfig.multipleConditionsOr cs =>
      some ((cs.map fun c => SqlCond.cmpS c.1 c.2) ++ [SqlCond.orS cs])
  | ColType.numeric, ThresholdConfig.valueThreshold _ v =>
      some [SqlCond.cmpS NumOp.ge v, SqlCond.cmpS NumOp.lt v]
  | ColType.numeric, _ => none
  | ColType.categorical, ThresholdConfig.categorical groups =>
      some ((groups.filter (fun g => !g.isEmpty)).map fun g => SqlCond.inS g)
  | ColType.categorical, _ => some []

/-! ### Evaluation of conditions (tabular backend)

`analyze_data_combinations`, lines 448-568: each condition in a condition
set is applied in turn to the remaining rows, so a combination's matching
rows are the rows on which every condition's mask is true.  A condition that
matches none of the branch operators applies no filter (mask `true`
everywhere); the `elif not threshold_data` branch on a non-numeric column
sets `valid_filter = False`, discarding the combination. -/

/-- A comparison of the OR-group branch (lines 470-482): `x op v` on the
cell `x`; `false` on NaN. -/
def orCmpHolds (op : NumOp) (v : ℚ) : Option ℚ → Bool
  | none => false
  | some x =>
      match op with
      | NumOp.gt => decide (v < x)
      | NumOp.lt => decide (x < v)
      | NumOp.ge => decide (v ≤ x)
      | NumOp.le => decide (x ≤ v)

/-- Mask of one condition item on a numeric column's cell (lines 530-555 for
single items, 461-486 for OR groups).  The single-condition branch handles
only `>=`, `<` and `>`: a `<=` item and an `isin` item fall through with no
filter applied, hence mask `true`. -/
def numItemHolds : CondItem → Option ℚ → Bool
  | CondItem.range s e id tot, some x =>
      if id = tot then decide (s ≤ x) && decide (x ≤ e)
      else decide (s ≤ x) && decide (x < e)
  | CondItem.range _ _ _ _, none => false
  | CondItem.cmp NumOp.ge v, ox => orCmpHolds NumOp.ge v ox
  | CondItem.cmp NumOp.lt v, ox => orCmpHolds NumOp.lt v ox
  | CondItem.cmp NumOp.gt v, ox => orCmpHolds NumOp.gt v ox
  | CondItem.cmp NumOp.le _, _ => true
  | CondItem.orGroup cs, ox => cs.any fun c => orCmpHolds c.1 c.2 ox
  | CondItem.isin _, _ => true

/-- Mask of one condition item of a condition set on one row (type dispatch
of lines 461-568).  On a categorical column only `isin` filters
(`.isin(threshold_data)`, NaN never a member); comparisons, ranges and OR
groups apply no filter there. -/
def itemHolds (types : String → ColType) (r : Row) : String × CondItem → Bool
  | (c, it) =>
      match types c with
      | ColType.numeric => numItemHolds it (getNum r c)
      | ColType.categorical =>
          match it with
          | CondItem.isin vals =>
              match Row.get r c with
              | some v => vals.contains v
              | none => false
          | _ => true

/-- `valid_filter` contribution of one condition item (lines 557-568): on a
categorical column, an `isin` with an empty value list — and, because Python's
`elif not threshold_data:` also fires on the falsy number `0.0`, a comparison
against the value 0 — invalidates the whole combination. -/
def itemValid (types : String → ColType) : String × CondItem → Bool
  | (c, it) =>
      match types c with
      | ColType.numeric => true
      | ColType.categorical =>
          match it with
          | CondItem.isin vals => !vals.isEmpty
          | CondItem.cmp _ v => decide (v ≠ 0)
          | _ => true

/-! ### Combination enumeration (both backends)

Lines 345-347 / 30-32: `for combo_length in range(1, len+1): for column_combo
in combinations(selected_columns, combo_length)`, then the Cartesian product
`product(*condition_variations)` with the rightmost factor varying fastest. -/

/-- `itertools.combinations l n` in its enumeration order. -/
def combosLen : ℕ → List α → List (List α)
  | 0, _ => [[]]
  | _ + 1, [] => []
  | n + 1, x :: xs => (combosLen n xs).map (fun t => x :: t) ++ combosLen (n + 1) xs

/-- All non-empty column subsets by increasing size, each in lexical
(positional) order. -/
def allCombos (selected : List α) : List (List α) :=
  (List.range selected.length).flatMap fun i => combosLen (i + 1) selected

/-- `itertools.product` over a list of factor lists (leftmost factor varies
slowest). -/
def listProd : List (List α) → List (List α)
  | [] => [[]]
  | l :: ls => l.flatMap fun x => (listProd ls).map fun t => x :: t

/-! ### Result assembly -/

/-- `calculate_max_run` (`analysis_engine.py`, lines 193-212), the loop with
accumulators `max_run`, `current_run`, `prev_value`. -/
def maxRunAux : Val → ℕ → ℕ → List Val → ℕ
  | _, maxR, _, [] => maxR
  | prev, maxR, cur, v :: rest =>
      if v = prev then maxRunAux v (max maxR (cur + 1)) (cur + 1) rest
      else maxRunAux v maxR 1 rest

/-- `calculate_max_run`: 0 on an empty series, else the longest streak of
consecutive equal values. -/
def calculate_max_run : List Val → ℕ
  | [] => 0
  | v :: rest => maxRunAux v 1 1 rest

/-- The non-null values of one column of a row list, in row order
(`filtered_df[result_col].dropna()`). -/
def colVals (rows : List Row) (c : String) : List Val :=
  rows.filterMap fun r => Row.get r c

/-- `filtered_df[id_column].astype(str)` of one cell: NaN prints as `"nan"`. -/
def idStr : Option Val → String
  | none => "nan"
  | some (Val.num q) => toString q
  | some (Val.str s) => s

/-- The part of a result row the verified properties are about: the
matching-row count, the reported per-result-column max-run statistics, and
the identifier sample with its overflow count.  (The other statistics and the
description strings are presentational and omitted; the query backend
computes no max-run, so its rows carry an empty `maxRuns`.) -/
structure ResultRowE where
  matching : ℕ
  maxRuns : List (String × ℕ)
  ids : List String
  more : Option ℕ
deriving DecidableEq

/-- Tabular result-row assembly (lines 577-628): max-run for each requested
result column present in the data whose matching series is non-empty after
`dropna`, then the first 20 identifiers with an `... (k more)` overflow when
more than 20 rows match. -/
def mkRow (cols : List String) (resultCols : List String) (idCol : String)
    (rows : List Row) : ResultRowE :=
  { matching := rows.length,
    maxRuns := resultCols.filterMap fun rc =>
      if rc ∈ cols then
        if (colVals rows rc).isEmpty then none
        else some (rc, calculate_max_run (colVals rows rc))
      else none,
    ids :=
      if 20 < rows.length then (rows.map fun r => idStr (Row.get r idCol)).take 20
      else rows.map fun r => idStr (Row.get r idCol),
    more := if 20 < rows.length then some (rows.length - 20) else none }

/-! ### The tabular backend (`analyze_data_combinations`) -/

/-- The `condition_variations` lists built for one column combination
(lines 350-445): `none` when generating any column's variants raises
(which kills the whole run), otherwise the per-column variant lists in
column order, columns whose configuration matches no branch silently
omitted. -/
def tabuVariations (types : String → ColType) (thr : String → ThresholdConfig)
    (combo : List String) : Option (List (List (String × CondItem))) :=
  combo.foldr
    (fun c acc => do
      let ls ← acc
      match genTab (types c) (thr c) with
      | GenResult.crash => none
      | GenResult.skipped => pure ls
      | GenResult.vars l => pure ((l.map fun it => (c, it)) :: ls))
    (pure [])

/-- Evaluation of one condition set (lines 448-628): the combination
contributes a result row exactly when every item keeps `valid_filter`,
the filtered frame is non-empty, and the matching-row count reaches
`min_matching_rows`. -/
def emitTab (df : DataFrame) (types : String → ColType) (idCol : String)
    (resultCols : List String) (minRows : ℕ)
    (cs : List (String × CondItem)) : Option ResultRowE :=
  if cs.all (itemValid types) then
    if (!(df.rows.filter fun r => cs.all (itemHolds types r)).isEmpty) ∧
        minRows ≤ (df.rows.filter fun r => cs.all (itemHolds types r)).length then
      some (mkRow df.cols resultCols idCol (df.rows.filter fun r => cs.all (itemHolds types r)))
    else none
  else none

/-- `analyze_data_combinations` (lines 342-630).  An exception while building
any combination's `condition_variations` (KeyError on a missing `"value"`
key) aborts the run before it returns anything: modelled by `none`. -/
def analyze (df : DataFrame) (selected : List String)
    (thr : String → ThresholdConfig) (types : String → ColType)
    (idCol : String) (resultCols : List String) (minRows : ℕ) :
    Option (List ResultRowE) :=
  if (allCombos selected).all (fun combo => (tabuVariations types thr combo).isSome) then
    some ((allCombos selected).flatMap fun combo =>
      (listProd ((tabuVariations types thr combo).getD [])).filterMap
        (emitTab df types idCol resultCols minRows))
  else none

/-! ### The query backend (`analyze_data_combinations_db`) -/

/-- Row semantics of one generated SQL condition: comparisons and `IN` are
not satisfied on NULL; the range fragment is `>= start AND < stop`
(`<= stop` for the last range). -/
def sqlHolds (r : Row) : String × SqlCond → Bool
  | (c, SqlCond.cmpS op v) => orCmpHolds op v (getNum r c)
  | (c, SqlCond.rangeS s e inc) =>
      match getNum r c with
      | some x =>
          if inc then decide (s ≤ x) && decide (x ≤ e)
          else decide (s ≤ x) && decide (x < e)
      | none => false
  | (c, SqlCond.orS cs) => cs.any fun p => orCmpHolds p.1 p.2 (getNum r c)
  | (c, SqlCond.inS vals) =>
      match Row.get r c with
      | some v => vals.contains v
      | none => false

/-- The replies the query backend's id-sample query (lines 111-116,
`SELECT "id" FROM t WHERE ... LIMIT 20`, no ORDER BY) admits: the store may
return any `min 20 count` of the matching rows, in any order.
`LimitSample rows s` says `s` is one such reply for matching rows `rows`. -/
def LimitSample (rows s : List Row) : Prop :=
  s.length = min 20 rows.length ∧ List.Subperm s rows

/-- Query-backend result-row assembly (lines 93-124) from one store reply
`s` to the id-sample query: the count from `COUNT(*)` over the matching
rows, the identifiers from `s`, the overflow suffix computed from
`matching_rows` when more than 20 rows match.  The query backend computes
no max-run. -/
def mkRowDbWith (idCol : String) (rows s : List Row) : ResultRowE :=
  { matching := rows.length,
    maxRuns := [],
    ids := s.map fun r => idStr (Row.get r idCol),
    more := if 20 < rows.length then some (rows.length - 20) else none }

/-- `mkRowDbWith` under one particular legitimate store behavior — the scan
in stored row order, replying with the first 20 matching rows.  The
executable `analyzeDb` pipeline runs under this behavior; the issued SQL
does not single it out (see `LimitSample`). -/
def mkRowDb (idCol : String) (rows : List Row) : ResultRowE :=
  { matching := rows.length,
    maxRuns := [],
    ids := (rows.take 20).map fun r => idStr (Row.get r idCol),
    more := if 20 < rows.length then some (rows.length - 20) else none }

/-- The per-combination condition lists of the query backend (lines 34-48):
`generate_sql_condition` is called outside the `try`, so a KeyError there
(`none`) kills the run; an empty condition list is appended as an empty
product factor. -/
def dbVariations (types : String → ColType) (thr : String → ThresholdConfig)
    (combo : List String) : Option (List (List (String × SqlCond))) :=
  combo.foldr
    (fun c acc => do
      let ls ← acc
      let l ← generate_sql_condition (types c) (thr c)
      pure ((l.map fun sc => (c, sc)) :: ls))
    (pure [])

/-- Evaluation of one condition set by the query backend (lines 51-131).
`aggOk` models the `try`/`except` around the two round trips: when it is
`false` for a condition set, that combination's queries fail and the
combination is skipped (`except ... continue`). -/
def emitDb (df : DataFrame) (idCol : String) (minRows : ℕ)
    (aggOk : List (String × SqlCond) → Bool)
    (cs : List (String × SqlCond)) : Option ResultRowE :=
  if aggOk cs then
    if minRows ≤ (df.rows.filter fun r => cs.all (sqlHolds r)).length then
      some (mkRowDb idCol (df.rows.filter fun r => cs.all (sqlHolds r)))
    else none
  else none

/-- `analyze_data_combinations_db` (lines 9-133) over the same data snapshot,
with `aggOk` as the query-failure oracle. -/
def analyzeDb (df : DataFrame) (selected : List String)
    (thr : String → ThresholdConfig) (types : String → ColType)
    (idCol : String) (minRows : ℕ)
    (aggOk : List (String × SqlCond) → Bool) : Option (List ResultRowE) :=
  if (allCombos selected).all (fun combo => (dbVariations types thr combo).isSome) then
    some ((allCombos selected).flatMap fun combo =>
      (listProd ((dbVariations types thr combo).getD [])).filterMap
        (emitDb df idCol minRows aggOk))
  else none

/-! ### Budget controller (`config.py`) -/

/-- `MAX_TOTAL_COMBINATIONS` (`config.py`, line 11). -/
def MAX_TOTAL_COMBINATIONS : ℕ := 10000

/-- `calculate_max_ranges` (`config.py`, lines 13-44).  The
`current_column_ranges` dict is embedded as the list of its values; Python's
`if current_column_ranges:` is false for both `None` and an empty dict, so
both are the empty list here.  `int(MAX_TOTAL_COMBINATIONS /
current_product)` truncates the positive float quotient, which agrees with
natural division here (the quotient only matters below the clamp bound 1000,
where float rounding of `10000 / p` is exact). -/
def calculate_max_ranges (selectedColumnsCount : ℕ)
    (currentColumnRanges : List ℕ) : ℕ :=
  if selectedColumnsCount = 0 then 100
  else
    let currentProduct :=
      if !currentColumnRanges.isEmpty then
        (currentColumnRanges.map fun c => max c 2).prod
      else
        let otherColumns := selectedColumnsCount - 1
        if 0 < otherColumns then 3 ^ otherColumns else 1
    if 0 < currentProduct then
      max 2 (min (MAX_TOTAL_COMBINATIONS / currentProduct) 1000)
    else 100

/-! ### Range construction (`app.py`, lines 1534-1546) -/

/-- The equal division of `[minVal, maxVal]` into `n` numeric ranges: range
`i` starts at `min + i * size` and ends at `min + (i+1) * size`, except the
last, which ends at `max` ("last range gets any remainder"). -/
def makeRanges (minVal maxVal : ℚ) (n : ℕ) : List (ℚ × ℚ) :=
  (List.range n).map fun i : ℕ =>
    (minVal + (i : ℚ) * ((maxVal - minVal) / (n : ℚ)),
     if i = n - 1 then maxVal
     else minVal + ((i : ℚ) + 1) * ((maxVal - minVal) / (n : ℚ)))

/-! ### Specification-side definitions (stated from the spec's words, for
comparison with the code-derived definitions above) -/

/-- Spec: "the length of the longest streak of consecutive equal values".
`IsStreak l n` says `l` contains `n` consecutive equal values. -/
def IsStreak (l : List Val) (n : ℕ) : Prop :=
  ∃ pre x rest, l = pre ++ List.replicate n x ++ rest

/-- Length of the streak of values equal to `x` at the head of the list. -/
def headRun (x : Val) : List Val → ℕ
  | [] => 0
  | y :: ys => if y = x then headRun x ys + 1 else 0

/-- Drop the streak of values equal to `x` at the head of the list. -/
def dropRun (x : Val) (l : List Val) : List Val :=
  l.dropWhile fun y => y == x

/-- Spec-side longest streak of consecutive equal values (maximum over all
start positions of the streak length starting there). -/
def longestRun : List Val → ℕ
  | [] => 0
  | x :: xs => max (headRun x xs + 1) (longestRun xs)

/-- Spec formula for the per-column cap (§4.2): `clamp(floor(CAP /
product(max(other_count, 2) for each other selected column)), 2, 1000)`. -/
def specCap (otherCounts : List ℕ) : ℕ :=
  max 2 (min (MAX_TOTAL_COMBINATIONS / (otherCounts.map fun c => max c 2).prod) 1000)

/-- Division `i` (0-based) of the `[minV, maxV]` split into `n` equal
divisions, as the spec words it: `start_i <= x < end_i`, except the last
division, which is `start_i <= x <= maxV`. -/
def DivHolds (minV maxV : ℚ) (n i : ℕ) (x : ℚ) : Prop :=
  minV + (i : ℚ) * ((maxV - minV) / (n : ℚ)) ≤ x ∧
    (if i = n - 1 then x ≤ maxV
     else x < minV + ((i : ℚ) + 1) * ((maxV - minV) / (n : ℚ)))

/-! ### Concrete fixtures used by witnesses and counterexamples -/

/-- A small snapshot: identifier column `id`, numeric column `A` with values
1, 2, 3. -/
def dfEx : DataFrame :=
  ⟨["id", "A"],
   [[("id", Val.str "a"), ("A", Val.num 1)],
    [("id", Val.str "b"), ("A", Val.num 2)],
    [("id", Val.str "c"), ("A", Val.num 3)]]⟩

/-- Column typing with `A` numeric. -/
def typesNum : String → ColType :=
  fun c => if c = "A" then ColType.numeric else ColType.categorical

/-- A mean-style value threshold at 2 on every column. -/
def thrEx : String → ThresholdConfig :=
  fun _ => ThresholdConfig.valueThreshold "mean" 2

/-- A `multiple_greater_than` configuration with the single value 2. -/
def thrMgt : String → ThresholdConfig :=
  fun _ => ThresholdConfig.multipleGreaterThan [2]

/-- A snapshot with a categorical column `B`. -/
def dfB : DataFrame :=
  ⟨["id", "B"],
   [[("id", Val.str "r1"), ("B", Val.str "x")],
    [("id", Val.str "r2"), ("B", Val.str "y")]]⟩

/-- Column typing with everything categorical. -/
def typesCat : String → ColType := fun _ => ColType.categorical

/-- A threshold configuration of unrecognized kind on every column. -/
def thrBogus : String → ThresholdConfig :=
  fun _ => ThresholdConfig.otherKind "bogus"

/-- A snapshot with numeric column `A` holding 0..10 (the spec's end-to-end
example C). -/
def dfC7 : DataFrame :=
  ⟨["id", "A"], (List.range 11).map fun i =>
    [("id", Val.str ("r" ++ toString i)), ("A", Val.num i)]⟩

/-- The OR configuration `[">5", "<1"]`. -/
def thrOr : String → ThresholdConfig :=
  fun _ => ThresholdConfig.multipleConditionsOr [(NumOp.gt, 5), (NumOp.lt, 1)]

/-- A query-failure oracle that fails exactly the combination whose single
condition is `"A" < 2`. -/
def failLt : List (String × SqlCond) → Bool :=
  fun cs => decide (cs ≠ [("A", SqlCond.cmpS NumOp.lt 2)])

/-! ## Helper lemmas: the max-run statistic -/

theorem headRun_le_length (x : Val) : ∀ l : List Val, headRun x l ≤ l.length := by
  intro l
  induction l with
  | nil => simp [headRun]
  | cons y ys ih =>
    by_cases h : y = x
    · simp [headRun, h]; omega
    · simp [headRun, h]

theorem headRun_replicate (x : Val) (m : ℕ) (r : List Val) :
    headRun x (List.replicate m x ++ r) = m + headRun x r := by
  induction m with
  | zero => simp
  | succ k ih => simp [List.replicate_succ, headRun, ih]; omega

theorem takeWhile_eq_replicate_headRun (x : Val) :
    ∀ l : List Val, l.takeWhile (fun y => y == x) = List.replicate (headRun x l) x := by
  intro l
  induction l with
  | nil => rfl
  | cons y ys ih =>
    by_cases h : y = x
    · subst h
      simp [List.takeWhile_cons, headRun, ih, List.replicate_succ]
    · simp [List.takeWhile_cons, headRun, h]

theorem longestRun_cons_eq_max_dropRun (x : Val) :
    ∀ xs : List Val,
      longestRun (x :: xs) = max (headRun x xs + 1) (longestRun (dropRun x xs)) := by
  intro xs
  induction xs with
  | nil => simp [longestRun, headRun, dropRun]
  | cons y ys ih =>
    by_cases h : y = x
    · subst h
      have hd : dropRun y (y :: ys) = dropRun y ys := by
        simp [dropRun, List.dropWhile_cons]
      have hh : headRun y (y :: ys) = headRun y ys + 1 := by
        simp [headRun]
      rw [hd, hh]
      have : longestRun (y :: y :: ys) = max (headRun y (y :: ys) + 1) (longestRun (y :: ys)) := rfl
      rw [this, hh, ih]
      omega
    · have hd : dropRun x (y :: ys) = y :: ys := by
        simp [dropRun, List.dropWhile_cons, h]
      have hh : headRun x (y :: ys) = 0 := by
        simp [headRun, h]
      have hdef : longestRun (x :: y :: ys) =
          max (headRun x (y :: ys) + 1) (longestRun (y :: ys)) := rfl
      rw [hd, hh, hdef, hh]

theorem maxRunAux_eq_longestRun :
    ∀ (rest : List Val) (prev : Val) (maxR cur : ℕ), 1 ≤ cur → cur ≤ maxR →
      maxRunAux prev maxR cur rest =
        max maxR (max (cur + headRun prev rest) (longestRun (dropRun prev rest))) := by
  intro rest
  induction rest with
  | nil =>
    intro prev maxR cur h1 h2
    simp [maxRunAux, headRun, dropRun, longestRun]
    omega
  | cons v vs ih =>
    intro prev maxR cur h1 h2
    by_cases hv : v = prev
    · subst hv
      have hh : headRun v (v :: vs) = headRun v vs + 1 := by simp [headRun]
      have hd : dropRun v (v :: vs) = dropRun v vs := by
        simp [dropRun, List.dropWhile_cons]
      have hstep : maxRunAux v maxR cur (v :: vs) =
          maxRunAux v (max maxR (cur + 1)) (cur + 1) vs := by
        simp [maxRunAux]
      rw [hstep, ih v (max maxR (cur + 1)) (cur + 1) (by omega) (le_max_right _ _), hh, hd]
      omega
    · have hh : headRun prev (v :: vs) = 0 := by simp [headRun, hv]
      have hd : dropRun prev (v :: vs) = v :: vs := by
        simp [dropRun, List.dropWhile_cons, hv]
      simp only [maxRunAux, if_neg hv]
      rw [ih v maxR 1 le_rfl (by omega), hh, hd,
        longestRun_cons_eq_max_dropRun]
      omega

theorem calculate_max_run_eq_longestRun (l : List Val) :
    calculate_max_run l = longestRun l := by
  cases l with
  | nil => rfl
  | cons x xs =>
    have h := maxRunAux_eq_longestRun xs x 1 1 le_rfl le_rfl
    have h2 := longestRun_cons_eq_max_dropRun x xs
    simp only [calculate_max_run]
    rw [h]
    have h3 : 1 ≤ longestRun (x :: xs) := by
      have : longestRun (x :: xs) = max (headRun x xs + 1) (longestRun xs) := rfl
      omega
    omega

theorem longestRun_isStreak : ∀ l : List Val, l ≠ [] → IsStreak l (longestRun l) := by
  intro l
  induction l with
  | nil => intro h; exact absurd rfl h
  | cons x xs ih =>
    intro _
    have hdef : longestRun (x :: xs) = max (headRun x xs + 1) (longestRun xs) := rfl
    rcases le_total (longestRun xs) (headRun x xs + 1) with hle | hle
    · have hmax : longestRun (x :: xs) = headRun x xs + 1 := by omega
      refine ⟨[], x, xs.dropWhile (fun y => y == x), ?_⟩
      rw [hmax]
      have hsplit := List.takeWhile_append_dropWhile (p := fun y => y == x) (l := xs)
      rw [takeWhile_eq_replicate_headRun] at hsplit
      calc x :: xs = x :: (List.replicate (headRun x xs) x ++ xs.dropWhile (fun y => y == x)) := by
            rw [hsplit]
        _ = [] ++ List.replicate (headRun x xs + 1) x ++ xs.dropWhile (fun y => y == x) := rfl
    · have hmax : longestRun (x :: xs) = longestRun xs := by omega
      have hxs : xs ≠ [] := by
        intro hnil
        subst hnil
        simp [longestRun] at hle
      rcases ih hxs with ⟨pre, y, rest, hy⟩
      refine ⟨x :: pre, y, rest, ?_⟩
      rw [hmax]
      calc x :: xs = x :: (pre ++ List.replicate (longestRun xs) y ++ rest) := by rw [← hy]
        _ = x :: pre ++ List.replicate (longestRun xs) y ++ rest := rfl

theorem isStreak_le_longestRun :
    ∀ (l : List Val) (n : ℕ), IsStreak l n → n ≤ longestRun l := by
  intro l n ⟨pre, x, rest, hl⟩
  subst hl
  induction pre with
  | nil =>
    have hrw : ([] : List Val) ++ List.replicate n x ++ rest =
        List.replicate n x ++ rest := by simp
    rw [hrw]
    cases n with
    | zero => omega
    | succ m =>
      have hcons : List.replicate (m + 1) x ++ rest = x :: (List.replicate m x ++ rest) := rfl
      rw [hcons]
      have hdef : longestRun (x :: (List.replicate m x ++ rest)) =
          max (headRun x (List.replicate m x ++ rest) + 1)
            (longestRun (List.replicate m x ++ rest)) := rfl
      have hhr := headRun_replicate x m rest
      omega
  | cons p ps ih =>
    have hdef : longestRun (p :: (ps ++ List.replicate n x ++ rest)) =
        max (headRun p (ps ++ List.replicate n x ++ rest) + 1)
          (longestRun (ps ++ List.replicate n x ++ rest)) := rfl
    simp only [List.cons_append]
    omega

theorem longestRun_le_length : ∀ l : List Val, longestRun l ≤ l.length := by
  intro l
  induction l with
  | nil => simp [longestRun]
  | cons x xs ih =>
    have hdef : longestRun (x :: xs) = max (headRun x xs + 1) (longestRun xs) := rfl
    have := headRun_le_length x xs
    simp only [List.length_cons]
    omega

theorem one_le_longestRun_cons (x : Val) (xs : List Val) : 1 ≤ longestRun (x :: xs) := by
  have hdef : longestRun (x :: xs) = max (headRun x xs + 1) (longestRun xs) := rfl
  omega

/-! ## Helper lemmas: the tabular pipeline -/

theorem analyze_mem {df : DataFrame} {sel : List String}
    {thr : String → ThresholdConfig} {types : String → ColType} {idCol : String}
    {resultCols : List String} {m : ℕ} {out : List ResultRowE} {row : ResultRowE}
    (h : analyze df sel thr types idCol resultCols m = some out) (hr : row ∈ out) :
    ∃ cs, emitTab df types idCol resultCols m cs = some row := by
  unfold analyze at h
  split at h
  · injection h with h'
    subst h'
    rcases List.mem_flatMap.1 hr with ⟨combo, _, hmem⟩
    rcases List.mem_filterMap.1 hmem with ⟨cs, _, hcs⟩
    exact ⟨cs, hcs⟩
  · cases h

theorem emitTab_some {df : DataFrame} {types : String → ColType} {idCol : String}
    {resultCols : List String} {m : ℕ} {cs : List (String × CondItem)} {row : ResultRowE}
    (h : emitTab df types idCol resultCols m cs = some row) :
    row = mkRow df.cols resultCols idCol (df.rows.filter fun r => cs.all (itemHolds types r)) ∧
    m ≤ (df.rows.filter fun r => cs.all (itemHolds types r)).length ∧
    (df.rows.filter fun r => cs.all (itemHolds types r)) ≠ [] := by
  unfold emitTab at h
  split at h
  · split at h
    · rename_i hcond
      injection h with h'
      refine ⟨h'.symm, hcond.2, ?_⟩
      have hne := hcond.1
      simpa using hne
    · cases h
  · cases h

theorem mkRow_maxRuns_mem {cols resultCols : List String} {idCol : String}
    {rows : List Row} {q : String × ℕ}
    (h : q ∈ (mkRow cols resultCols idCol rows).maxRuns) :
    q.2 = calculate_max_run (colVals rows q.1) := by
  simp only [mkRow] at h
  rcases List.mem_filterMap.1 h with ⟨rc, _, hq⟩
  split at hq
  · split at hq
    · cases hq
    · cases hq
      rfl
  · cases hq

theorem emitTab_isSome_mono {df : DataFrame} {types : String → ColType}
    {idCol : String} {resultCols : List String} {m1 m2 : ℕ} (hm : m1 ≤ m2)
    (cs : List (String × CondItem))
    (h : (emitTab df types idCol resultCols m2 cs).isSome) :
    (emitTab df types idCol resultCols m1 cs).isSome := by
  unfold emitTab at h ⊢
  split at h
  · rename_i hvalid
    split at h
    · rename_i hcond
      rw [if_pos hvalid, if_pos ⟨hcond.1, le_trans hm hcond.2⟩]
      rfl
    · simp at h
  · simp at h

theorem length_filterMap_le {α β : Type} (f g : α → Option β) (l : List α)
    (h : ∀ a ∈ l, (f a).isSome → (g a).isSome) :
    (l.filterMap f).length ≤ (l.filterMap g).length := by
  induction l with
  | nil => simp
  | cons a as ih =>
    have htail := ih fun x hx => h x (List.mem_cons_of_mem a hx)
    cases hf : f a with
    | none =>
      cases hg : g a with
      | none => simpa [List.filterMap_cons, hf, hg] using htail
      | some b =>
        simp only [List.filterMap_cons, hf, hg, List.length_cons]
        omega
    | some b =>
      have hgs : (g a).isSome := h a (List.mem_cons_self a as) (by simp [hf])
      cases hg : g a with
      | none => rw [hg] at hgs; simp at hgs
      | some c =>
        simp only [List.filterMap_cons, hf, hg, List.length_cons]
        omega

theorem filterMap_sublist {α β : Type} (f g : α → Option β) (l : List α)
    (h : ∀ a ∈ l, ∀ b, f a = some b → g a = some b) :
    List.Sublist (l.filterMap f) (l.filterMap g) := by
  induction l with
  | nil => simp
  | cons a as ih =>
    have htail := ih fun x hx => h x (List.mem_cons_of_mem a hx)
    cases hf : f a with
    | none =>
      cases hg : g a with
      | none => simpa [List.filterMap_cons, hf, hg] using htail
      | some b =>
        simp only [List.filterMap_cons, hf, hg]
        exact htail.cons b
    | some b =>
      have hgb := h a (List.mem_cons_self a as) b hf
      simp only [List.filterMap_cons, hf, hgb]
      exact htail.cons₂ b

theorem flatMap_sublist {α β : Type} (f g : α → List β) (l : List α)
    (h : ∀ a ∈ l, List.Sublist (f a) (g a)) :
    List.Sublist (l.flatMap f) (l.flatMap g) := by
  induction l with
  | nil => simp
  | cons a as ih =>
    simp only [List.flatMap_cons]
    exact List.Sublist.append (h a (List.mem_cons_self a as))
      (ih fun x hx => h x (List.mem_cons_of_mem a hx))

/-! ## Helper lemmas: the query pipeline -/

theorem analyzeDb_mem {df : DataFrame} {sel : List String}
    {thr : String → ThresholdConfig} {types : String → ColType} {idCol : String}
    {m : ℕ} {aggOk : List (String × SqlCond) → Bool} {out : List ResultRowE}
    {row : ResultRowE}
    (h : analyzeDb df sel thr types idCol m aggOk = some out) (hr : row ∈ out) :
    ∃ cs, emitDb df idCol m aggOk cs = some row := by
  unfold analyzeDb at h
  split at h
  · injection h with h'
    subst h'
    rcases List.mem_flatMap.1 hr with ⟨combo, _, hmem⟩
    rcases List.mem_filterMap.1 hmem with ⟨cs, _, hcs⟩
    exact ⟨cs, hcs⟩
  · cases h

theorem emitDb_some {df : DataFrame} {idCol : String} {m : ℕ}
    {aggOk : List (String × SqlCond) → Bool} {cs : List (String × SqlCond)}
    {row : ResultRowE} (h : emitDb df idCol m aggOk cs = some row) :
    row = mkRowDb idCol (df.rows.filter fun r => cs.all (sqlHolds r)) ∧
    m ≤ (df.rows.filter fun r => cs.all (sqlHolds r)).length ∧
    aggOk cs = true := by
  unfold emitDb at h
  split at h
  · rename_i hok
    split at h
    · rename_i hlen
      injection h with h'
      exact ⟨h'.symm, hlen, hok⟩
    · cases h
  · cases h

theorem emitDb_isSome_mono {df : DataFrame} {idCol : String} {m1 m2 : ℕ}
    {aggOk : List (String × SqlCond) → Bool} (hm : m1 ≤ m2)
    (cs : List (String × SqlCond))
    (h : (emitDb df idCol m2 aggOk cs).isSome) :
    (emitDb df idCol m1 aggOk cs).isSome := by
  unfold emitDb at h ⊢
  split at h
  · rename_i hok
    split at h
    · rename_i hlen
      rw [if_pos hok, if_pos (le_trans hm hlen)]
      rfl
    · simp at h
  · simp at h

theorem emitDb_oracle_mono {df : DataFrame} {idCol : String} {m : ℕ}
    {o1 o2 : List (String × SqlCond) → Bool}
    (himp : ∀ cs, o1 cs = true → o2 cs = true)
    (cs : List (String × SqlCond)) (b : ResultRowE)
    (hb : emitDb df idCol m o1 cs = some b) : emitDb df idCol m o2 cs = some b := by
  unfold emitDb at hb ⊢
  split at hb
  · rename_i ho1
    rw [if_pos (himp cs ho1)]
    exact hb
  · cases hb

/-! ## Helper lemmas: the budget controller -/

theorem prodMax_pos (l : List ℕ) : 0 < (l.map fun c => max c 2).prod := by
  induction l with
  | nil => simp
  | cons c cs ih =>
    simp only [List.map_cons, List.prod_cons]
    exact Nat.mul_pos (by omega) ih

theorem prodMax_le {l l' : List ℕ} (h : List.Forall₂ (· ≤ ·) l l') :
    (l.map fun c => max c 2).prod ≤ (l'.map fun c => max c 2).prod := by
  induction h with
  | nil => exact le_rfl
  | cons hab _ ih =>
    simp only [List.map_cons, List.prod_cons]
    exact Nat.mul_le_mul (by omega) ih

theorem prodMax_replicate (m : ℕ) :
    ((List.replicate m 3).map fun c => max c 2).prod = 3 ^ m := by
  rw [List.map_replicate, List.prod_replicate]
  norm_num

theorem cmr_nonempty (k : ℕ) (l : List ℕ) (hk : 1 ≤ k) (hl : l ≠ []) :
    calculate_max_ranges k l = specCap l := by
  have hk0 : k ≠ 0 := by omega
  have hne : l.isEmpty = false := by simpa using hl
  simp [calculate_max_ranges, specCap, hk0, hne, prodMax_pos l]

theorem cmr_default (k : ℕ) (hk : 1 ≤ k) :
    calculate_max_ranges k [] = specCap (List.replicate (k - 1) 3) := by
  have hk0 : k ≠ 0 := by omega
  by_cases h1 : 0 < k - 1
  · have hpow : 0 < (3 : ℕ) ^ (k - 1) := pow_pos (by norm_num) (k - 1)
    simp [calculate_max_ranges, specCap, hk0, h1, prodMax_replicate, hpow]
  · have hk1 : k = 1 := by omega
    subst hk1
    decide

/-! ## Helper lemmas: the range partition -/

theorem makeRanges_length (minV maxV : ℚ) (n : ℕ) :
    (makeRanges minV maxV n).length = n := by
  simp [makeRanges]

theorem makeRanges_getD (minV maxV : ℚ) (n i : ℕ) (hi : i < n) :
    (makeRanges minV maxV n).getD i (0, 0) =
      (minV + (i : ℚ) * ((maxV - minV) / (n : ℚ)),
       if i = n - 1 then maxV
       else minV + ((i : ℚ) + 1) * ((maxV - minV) / (n : ℚ))) := by
  unfold makeRanges
  have hlen : i < ((List.range n).map fun i : ℕ =>
      (minV + (i : ℚ) * ((maxV - minV) / (n : ℚ)),
       if i = n - 1 then maxV
       else minV + ((i : ℚ) + 1) * ((maxV - minV) / (n : ℚ)))).length := by
    simpa using hi
  rw [List.getD_eq_getElem _ _ hlen, List.getElem_map, List.getElem_range]

theorem n_mul_size (minV maxV : ℚ) (n : ℕ) (hn : 1 ≤ n) :
    (n : ℚ) * ((maxV - minV) / (n : ℚ)) = maxV - minV := by
  rw [mul_div_cancel₀]
  have h0 : (0 : ℚ) < n := by exact_mod_cast hn
  exact ne_of_gt h0

theorem divHolds_unique (minV maxV : ℚ) (n : ℕ) (hn : 1 ≤ n) (hle : minV ≤ maxV)
    (x : ℚ) (hx1 : minV ≤ x) (hx2 : x ≤ maxV) :
    ∃ i, i < n ∧ DivHolds minV maxV n i x ∧
      ∀ j, j < n → DivHolds minV maxV n j x → j = i := by
  set s := (maxV - minV) / (n : ℚ) with hs
  have hs0 : 0 ≤ s := div_nonneg (by linarith) (Nat.cast_nonneg n)
  have hP0 : minV + ((0 : ℕ) : ℚ) * s ≤ x := by push_cast; linarith
  set j := Nat.findGreatest (fun i => minV + (i : ℚ) * s ≤ x) (n - 1) with hj
  have hPj : minV + (j : ℚ) * s ≤ x :=
    Nat.findGreatest_spec (P := fun i => minV + (i : ℚ) * s ≤ x)
      (Nat.zero_le (n - 1)) hP0
  have hjle : j ≤ n - 1 :=
    Nat.findGreatest_le (P := fun i => minV + (i : ℚ) * s ≤ x) (n - 1)
  have hgr : ∀ k, j < k → k ≤ n - 1 → ¬(minV + (k : ℚ) * s ≤ x) := by
    intro k hk1 hk2
    exact Nat.findGreatest_is_greatest (P := fun i => minV + (i : ℚ) * s ≤ x) hk1 hk2
  refine ⟨j, by omega, ⟨hPj, ?_⟩, ?_⟩
  · by_cases hjn : j = n - 1
    · rw [if_pos hjn]
      exact hx2
    · rw [if_neg hjn]
      have hnp := hgr (j + 1) (by omega) (by omega)
      have hlt := not_le.mp hnp
      push_cast at hlt
      linarith
  · intro k hk hDk
    rcases hDk with ⟨hklow, hkup⟩
    by_cases hkj : j < k
    · exact absurd hklow (hgr k hkj (by omega))
    · rcases Nat.lt_or_ge k j with hlt | hge
      · exfalso
        have hkne : k ≠ n - 1 := by omega
        rw [if_neg hkne] at hkup
        have hcast : ((k : ℚ) + 1) ≤ (j : ℚ) := by exact_mod_cast (by omega : k + 1 ≤ j)
        have hmono : ((k : ℚ) + 1) * s ≤ (j : ℚ) * s :=
          mul_le_mul_of_nonneg_right hcast hs0
        linarith
      · omega

theorem divHolds_boundary (minV maxV : ℚ) (n : ℕ) (hn : 1 ≤ n) (hlt : minV < maxV)
    (i : ℕ) (h1 : 1 ≤ i) (hi : i < n) :
    DivHolds minV maxV n i (minV + (i : ℚ) * ((maxV - minV) / (n : ℚ))) := by
  set s := (maxV - minV) / (n : ℚ) with hs
  have hspos : 0 < s := by
    apply div_pos (by linarith)
    exact_mod_cast hn
  constructor
  · exact le_refl _
  · by_cases hjn : i = n - 1
    · rw [if_pos hjn]
      have hns : (n : ℚ) * s = maxV - minV := n_mul_size minV maxV n hn
      have hic : (i : ℚ) = (n : ℚ) - 1 := by
        subst hjn
        push_cast [Nat.cast_sub hn]
        ring
      rw [hic]
      nlinarith
    · rw [if_neg hjn]
      nlinarith

theorem rangeItems_getD (rs : List (ℚ × ℚ)) (i : ℕ) (hi : i < rs.length) :
    ((rs.enum).map fun p =>
        CondItem.range p.2.1 p.2.2 (p.1 + 1) rs.length).getD i
      (CondItem.cmp NumOp.ge 0) =
      CondItem.range (rs.getD i (0, 0)).1 (rs.getD i (0, 0)).2 (i + 1) rs.length := by
  have hlen : i < ((rs.enum).map fun p =>
      CondItem.range p.2.1 p.2.2 (p.1 + 1) rs.length).length := by simpa using hi
  rw [List.getD_eq_getElem _ _ hlen, List.getElem_map, List.getElem_enum,
    List.getD_eq_getElem _ _ hi]

theorem sqlRangeItems_getD (rs : List (ℚ × ℚ)) (i : ℕ) (hi : i < rs.length) :
    ((rs.enum).map fun p =>
        SqlCond.rangeS p.2.1 p.2.2 (p.1 + 1 = rs.length)).getD i
      (SqlCond.cmpS NumOp.ge 0) =
      SqlCond.rangeS (rs.getD i (0, 0)).1 (rs.getD i (0, 0)).2
        (i + 1 = rs.length) := by
  have hlen : i < ((rs.enum).map fun p =>
      SqlCond.rangeS p.2.1 p.2.2 (p.1 + 1 = rs.length)).length := by simpa using hi
  rw [List.getD_eq_getElem _ _ hlen, List.getElem_map, List.getElem_enum,
    List.getD_eq_getElem _ _ hi]

theorem rangeVariant_holds_iff (minV maxV : ℚ) (n : ℕ) (hn : 1 ≤ n) (i : ℕ)
    (hi : i < n) (x : ℚ) :
    numItemHolds
        (((makeRanges minV maxV n).enum.map fun p =>
            CondItem.range p.2.1 p.2.2 (p.1 + 1) (makeRanges minV maxV n).length).getD i
          (CondItem.cmp NumOp.ge 0)) (some x) = true ↔
      DivHolds minV maxV n i x := by
  have hlen := makeRanges_length minV maxV n
  rw [rangeItems_getD _ i (by omega), makeRanges_getD minV maxV n i hi, hlen]
  by_cases hjn : i = n - 1
  · subst hjn
    have hin : n - 1 + 1 = n := by omega
    simp [numItemHolds, DivHolds, hin, Bool.and_eq_true, decide_eq_true_eq]
  · have hin : ¬(i + 1 = n) := by omega
    simp [numItemHolds, DivHolds, hin, hjn, Bool.and_eq_true, decide_eq_true_eq]

/-! ## Claim theorems -/

/-- C10: `calculate_max_run` returns 0 exactly when the input series is
empty; for every non-empty series it returns a value between 1 and the
series length inclusive, and it returns the series length exactly when all
values in the series are equal. -/
theorem c10_max_run_bounds :
    (∀ l : List Val, calculate_max_run l = 0 ↔ l = []) ∧
    (∀ l : List Val, l ≠ [] →
      1 ≤ calculate_max_run l ∧ calculate_max_run l ≤ l.length) ∧
    (∀ l : List Val, l ≠ [] →
      (calculate_max_run l = l.length ↔ ∀ a ∈ l, ∀ b ∈ l, a = b)) := by
  have hb : ∀ l : List Val, l ≠ [] →
      1 ≤ calculate_max_run l ∧ calculate_max_run l ≤ l.length := by
    intro l hl
    cases l with
    | nil => exact absurd rfl hl
    | cons x xs =>
      rw [calculate_max_run_eq_longestRun]
      exact ⟨one_le_longestRun_cons x xs, longestRun_le_length (x :: xs)⟩
  refine ⟨?_, hb, ?_⟩
  · intro l
    cases l with
    | nil => simp [calculate_max_run]
    | cons x xs =>
      rw [calculate_max_run_eq_longestRun]
      have h1 := one_le_longestRun_cons x xs
      constructor
      · intro h0; omega
      · intro h; exact absurd h (List.cons_ne_nil x xs)
  · intro l hl
    constructor
    · intro heq a ha b hb'
      have hstreak := longestRun_isStreak l hl
      rw [← calculate_max_run_eq_longestRun, heq] at hstreak
      rcases hstreak with ⟨pre, x, rest, hx⟩
      have hlen := congrArg List.length hx
      simp only [List.length_append, List.length_replicate] at hlen
      have hpre : pre = [] := List.length_eq_zero.mp (by omega)
      have hrest : rest = [] := List.length_eq_zero.mp (by omega)
      subst hpre; subst hrest
      simp only [List.nil_append, List.append_nil] at hx
      rw [hx] at ha hb'
      rw [List.eq_of_mem_replicate ha, List.eq_of_mem_replicate hb']
    · intro hall
      cases l with
      | nil => exact absurd rfl hl
      | cons x xs =>
        have hx : ∀ b ∈ x :: xs, b = x :=
          fun b hb' => hall b hb' x (List.mem_cons_self x xs)
        have hrep : x :: xs = List.replicate (x :: xs).length x :=
          List.eq_replicate_of_mem hx
        have hstreak : IsStreak (x :: xs) (x :: xs).length :=
          ⟨[], x, [], by rw [← hrep]; simp⟩
        have h1 := isStreak_le_longestRun (x :: xs) (x :: xs).length hstreak
        rw [← calculate_max_run_eq_longestRun] at h1
        have h2 := (hb (x :: xs) hl).2
        omega

/-- C10 witness: concrete instantiation of the bounds at the series
`[5, 5, 3]`. -/
theorem c10_max_run_bounds_witness :
    1 ≤ calculate_max_run [Val.num 5, Val.num 5, Val.num 3] ∧
    calculate_max_run [Val.num 5, Val.num 5, Val.num 3] ≤ 3 :=
  c10_max_run_bounds.2.1 [Val.num 5, Val.num 5, Val.num 3] (by decide)

/-- C6: every emitted result row's max-run statistics are
`calculate_max_run` of the matching rows' column series after nulls are
dropped, the matching rows being an order-preserving filter of the data's
rows and meeting the minimum-row threshold; `calculate_max_run` is exactly
the length of the longest streak of consecutive equal values; and on the
value sequence `[5, 5, 3, 3, 3, 7]` the max-run is 3. -/
theorem c6_max_run_reported :
    (∀ (df : DataFrame) (sel : List String) (thr : String → ThresholdConfig)
        (types : String → ColType) (idCol : String) (resultCols : List String)
        (m : ℕ) (out : List ResultRowE) (row : ResultRowE),
        analyze df sel thr types idCol resultCols m = some out → row ∈ out →
        ∃ rows : List Row, (∃ p, rows = df.rows.filter p) ∧
          m ≤ rows.length ∧ row.matching = rows.length ∧
          ∀ q ∈ row.maxRuns, q.2 = calculate_max_run (colVals rows q.1)) ∧
    (∀ l : List Val, l ≠ [] → IsStreak l (calculate_max_run l)) ∧
    (∀ (l : List Val) (n : ℕ), IsStreak l n → n ≤ calculate_max_run l) ∧
    calculate_max_run
      [Val.num 5, Val.num 5, Val.num 3, Val.num 3, Val.num 3, Val.num 7] = 3 := by
  refine ⟨?_, ?_, ?_, by decide⟩
  · intro df sel thr types idCol resultCols m out row h hr
    rcases analyze_mem h hr with ⟨cs, hcs⟩
    rcases emitTab_some hcs with ⟨hrow, hm, _⟩
    refine ⟨df.rows.filter fun r => cs.all (itemHolds types r), ⟨_, rfl⟩, hm, ?_, ?_⟩
    · rw [hrow]; rfl
    · intro q hq
      rw [hrow] at hq
      exact mkRow_maxRuns_mem hq
  · intro l hl
    rw [calculate_max_run_eq_longestRun]
    exact longestRun_isStreak l hl
  · intro l n hn
    rw [calculate_max_run_eq_longestRun]
    exact isStreak_le_longestRun l n hn

/-- C4: `calculate_max_ranges` returns 100 with zero selected columns, and
otherwise clamp(floor(10000 / product of max(other_count, 2)), 2, 1000),
with the other columns' counts defaulting to 3 when not yet known; the cap
never falls below 2 and never increases as the selected-column count or the
other columns' variant counts increase. -/
theorem c4_budget_controller :
    (∀ l : List ℕ, calculate_max_ranges 0 l = 100) ∧
    (∀ (k : ℕ) (l : List ℕ), 1 ≤ k → l ≠ [] →
        calculate_max_ranges k l = specCap l) ∧
    (∀ k : ℕ, 1 ≤ k →
        calculate_max_ranges k [] = specCap (List.replicate (k - 1) 3)) ∧
    (∀ (k : ℕ) (l : List ℕ), 2 ≤ calculate_max_ranges k l) ∧
    (∀ (k : ℕ) (l l' : List ℕ), List.Forall₂ (· ≤ ·) l l' →
        calculate_max_ranges k l' ≤ calculate_max_ranges k l) ∧
    (∀ k k' : ℕ, 1 ≤ k → k ≤ k' →
        calculate_max_ranges k' [] ≤ calculate_max_ranges k []) ∧
    (∀ (k c : ℕ) (l : List ℕ), l ≠ [] →
        calculate_max_ranges k (c :: l) ≤ calculate_max_ranges k l) := by
  refine ⟨?_, cmr_nonempty, cmr_default, ?_, ?_, ?_, ?_⟩
  · intro l
    simp [calculate_max_ranges]
  · intro k l
    by_cases hk : k = 0
    · simp [calculate_max_ranges, hk]
    · have h2 : ∀ P : ℕ,
          2 ≤ (if 0 < P then max 2 (min (MAX_TOTAL_COMBINATIONS / P) 1000) else 100) := by
        intro P
        split <;> omega
      simp only [calculate_max_ranges, if_neg hk]
      exact h2 _
  · intro k l l' h
    by_cases hk : k = 0
    · simp [calculate_max_ranges, hk]
    · cases h with
      | nil => exact le_rfl
      | @cons a b as bs hab hrest =>
        rw [cmr_nonempty k (a :: as) (by omega) (List.cons_ne_nil a as),
          cmr_nonempty k (b :: bs) (by omega) (List.cons_ne_nil b bs)]
        unfold specCap
        have hp := prodMax_le (List.Forall₂.cons hab hrest)
        have hpos := prodMax_pos (a :: as)
        have hdiv :
            MAX_TOTAL_COMBINATIONS / (((b :: bs).map fun c => max c 2).prod) ≤
              MAX_TOTAL_COMBINATIONS / (((a :: as).map fun c => max c 2).prod) :=
          Nat.div_le_div_left hp hpos
        omega
  · intro k k' hk hkk
    rw [cmr_default k hk, cmr_default k' (by omega)]
    unfold specCap
    rw [prodMax_replicate, prodMax_replicate]
    have hle : (3 : ℕ) ^ (k - 1) ≤ 3 ^ (k' - 1) :=
      Nat.pow_le_pow_right (by norm_num) (by omega)
    have hdiv :
        MAX_TOTAL_COMBINATIONS / 3 ^ (k' - 1) ≤ MAX_TOTAL_COMBINATIONS / 3 ^ (k - 1) :=
      Nat.div_le_div_left hle (pow_pos (by norm_num) (k - 1))
    omega
  · intro k c l hl
    by_cases hk : k = 0
    · simp [calculate_max_ranges, hk]
    · rw [cmr_nonempty k (c :: l) (by omega) (List.cons_ne_nil c l),
        cmr_nonempty k l (by omega) hl]
      unfold specCap
      have hpos := prodMax_pos l
      have hle : (l.map fun c => max c 2).prod ≤ ((c :: l).map fun c => max c 2).prod := by
        simp only [List.map_cons, List.prod_cons]
        calc (l.map fun c => max c 2).prod
            = 1 * (l.map fun c => max c 2).prod := (Nat.one_mul _).symm
          _ ≤ max c 2 * (l.map fun c => max c 2).prod :=
              Nat.mul_le_mul_right _ (by omega)
      have hdiv :
          MAX_TOTAL_COMBINATIONS / (((c :: l).map fun c => max c 2).prod) ≤
            MAX_TOTAL_COMBINATIONS / ((l.map fun c => max c 2).prod) :=
        Nat.div_le_div_left hle hpos
      omega

/-- C4 witness: the clamp formula and the column-count monotonicity at
concrete inputs. -/
theorem c4_budget_controller_witness :
    calculate_max_ranges 2 [4] = specCap [4] ∧
    calculate_max_ranges 3 [] ≤ calculate_max_ranges 2 [] :=
  ⟨c4_budget_controller.2.1 2 [4] (by decide) (by decide),
   c4_budget_controller.2.2.2.2.2.1 2 3 (by decide) (by decide)⟩

/-- C6 witness: the streak bound applied at the concrete series
`[5, 5, 3, 3, 3, 7]` and the concrete streak `[3, 3, 3]`. -/
theorem c6_max_run_reported_witness :
    3 ≤ calculate_max_run
      [Val.num 5, Val.num 5, Val.num 3, Val.num 3, Val.num 3, Val.num 7] :=
  c6_max_run_reported.2.2.1
    [Val.num 5, Val.num 5, Val.num 3, Val.num 3, Val.num 3, Val.num 7] 3
    ⟨[Val.num 5, Val.num 5], Val.num 3, [Val.num 7], by decide⟩

/-- C5: the minimum-row filter is applied only after a combination has been
evaluated — in both backends every emitted result row's matching-row count
reaches `min_matching_rows` (in the tabular backend it is also positive), a
below-threshold combination contributing no row — and for a fixed dataset,
configuration and (for the query backend) failure oracle, increasing
`min_matching_rows` never increases the number of result rows. -/
theorem c5_min_rows_filter :
    (∀ (df : DataFrame) (sel : List String) (thr : String → ThresholdConfig)
        (types : String → ColType) (idCol : String) (resultCols : List String)
        (m : ℕ) (out : List ResultRowE) (row : ResultRowE),
        analyze df sel thr types idCol resultCols m = some out → row ∈ out →
        m ≤ row.matching ∧ 1 ≤ row.matching) ∧
    (∀ (df : DataFrame) (sel : List String) (thr : String → ThresholdConfig)
        (types : String → ColType) (idCol : String) (resultCols : List String)
        (m1 m2 : ℕ) (out1 out2 : List ResultRowE), m1 ≤ m2 →
        analyze df sel thr types idCol resultCols m1 = some out1 →
        analyze df sel thr types idCol resultCols m2 = some out2 →
        out2.length ≤ out1.length) ∧
    (∀ (df : DataFrame) (sel : List String) (thr : String → ThresholdConfig)
        (types : String → ColType) (idCol : String) (m : ℕ)
        (aggOk : List (String × SqlCond) → Bool) (out : List ResultRowE)
        (row : ResultRowE),
        analyzeDb df sel thr types idCol m aggOk = some out → row ∈ out →
        m ≤ row.matching) ∧
    (∀ (df : DataFrame) (sel : List String) (thr : String → ThresholdConfig)
        (types : String → ColType) (idCol : String) (m1 m2 : ℕ)
        (aggOk : List (String × SqlCond) → Bool) (out1 out2 : List ResultRowE),
        m1 ≤ m2 →
        analyzeDb df sel thr types idCol m1 aggOk = some out1 →
        analyzeDb df sel thr types idCol m2 aggOk = some out2 →
        out2.length ≤ out1.length) := by
  refine ⟨?_, ?_, ?_, ?_⟩
  · intro df sel thr types idCol resultCols m out row h hr
    rcases analyze_mem h hr with ⟨cs, hcs⟩
    rcases emitTab_some hcs with ⟨hrow, hm, hne⟩
    have hmatch : row.matching =
        (df.rows.filter fun r => cs.all (itemHolds types r)).length := by
      rw [hrow]; rfl
    have hpos : 0 < (df.rows.filter fun r => cs.all (itemHolds types r)).length :=
      List.length_pos.2 hne
    omega
  · intro df sel thr types idCol resultCols m1 m2 out1 out2 hm h1 h2
    unfold analyze at h1 h2
    by_cases hcond :
        ((allCombos sel).all fun combo => (tabuVariations types thr combo).isSome) = true
    · rw [if_pos hcond] at h1 h2
      injection h1 with e1
      injection h2 with e2
      subst e1; subst e2
      rw [List.length_flatMap, List.length_flatMap]
      apply List.sum_le_sum
      intro combo _
      exact length_filterMap_le _ _ _
        (fun cs _ hs => emitTab_isSome_mono hm cs hs)
    · rw [if_neg hcond] at h1
      cases h1
  · intro df sel thr types idCol m aggOk out row h hr
    rcases analyzeDb_mem h hr with ⟨cs, hcs⟩
    rcases emitDb_some hcs with ⟨hrow, hm, _⟩
    have hmatch : row.matching =
        (df.rows.filter fun r => cs.all (sqlHolds r)).length := by
      rw [hrow]; rfl
    omega
  · intro df sel thr types idCol m1 m2 aggOk out1 out2 hm h1 h2
    unfold analyzeDb at h1 h2
    by_cases hcond :
        ((allCombos sel).all fun combo => (dbVariations types thr combo).isSome) = true
    · rw [if_pos hcond] at h1 h2
      injection h1 with e1
      injection h2 with e2
      subst e1; subst e2
      rw [List.length_flatMap, List.length_flatMap]
      apply List.sum_le_sum
      intro combo _
      exact length_filterMap_le _ _ _
        (fun cs _ hs => emitDb_isSome_mono hm cs hs)
    · rw [if_neg hcond] at h1
      cases h1

/-- C5 witness: on the concrete snapshot `dfEx` with the mean-style
threshold at 2, raising the minimum shrinks the result table in both
backends (tabular: from 1 to 2; query backend: from 2 to 3). -/
theorem c5_min_rows_filter_witness :
    (([⟨2, [], ["b", "c"], none⟩] : List ResultRowE).length ≤
      ([⟨2, [], ["b", "c"], none⟩, ⟨1, [], ["a"], none⟩] : List ResultRowE).length) ∧
    (([] : List ResultRowE).length ≤
      ([⟨2, [], ["b", "c"], none⟩] : List ResultRowE).length) :=
  ⟨c5_min_rows_filter.2.1 dfEx ["A"] thrEx typesNum "id" [] 1 2 _ _
    (by omega) (by decide) (by decide),
   c5_min_rows_filter.2.2.2 dfEx ["A"] thrEx typesNum "id" 2 3 (fun _ => true) _ _
    (by omega) (by decide) (by decide)⟩

/-- C8 (as amended): every result row's identifier sample holds at most 20
identifiers, with an overflow count of `matching_rows - 20` exactly when
more than 20 rows match — in the tabular backend, and in the query backend
for every reply its ORDER-BY-less `LIMIT 20` id query admits.  In the
tabular backend the sample is the first 20 matching identifiers in the
data's original row order and the matching rows are an order-preserving
filter of the snapshot, so the tabular sample is deterministic; the
executable query pipeline runs under the stored-order store reply, which is
one legitimate reply among several — the issued SQL does not determine the
sample (see the C8 counterexample). -/
theorem c8_id_sample :
    (∀ (cols resultCols : List String) (idCol : String) (rows : List Row),
        (mkRow cols resultCols idCol rows).ids =
          (rows.map fun r => idStr (Row.get r idCol)).take 20 ∧
        (mkRow cols resultCols idCol rows).ids.length ≤ 20 ∧
        (20 < rows.length →
          (mkRow cols resultCols idCol rows).more = some (rows.length - 20)) ∧
        (rows.length ≤ 20 → (mkRow cols resultCols idCol rows).more = none)) ∧
    (∀ (idCol : String) (rows s : List Row), LimitSample rows s →
        (mkRowDbWith idCol rows s).ids.length ≤ 20 ∧
        (20 < rows.length →
          (mkRowDbWith idCol rows s).more = some (rows.length - 20)) ∧
        (rows.length ≤ 20 → (mkRowDbWith idCol rows s).more = none)) ∧
    (∀ (idCol : String) (rows : List Row),
        mkRowDb idCol rows = mkRowDbWith idCol rows (rows.take 20) ∧
        LimitSample rows (rows.take 20)) ∧
    (∀ (df : DataFrame) (sel : List String) (thr : String → ThresholdConfig)
        (types : String → ColType) (idCol : String) (resultCols : List String)
        (m : ℕ) (out : List ResultRowE) (row : ResultRowE),
        analyze df sel thr types idCol resultCols m = some out → row ∈ out →
        ∃ rows, (∃ p, rows = df.rows.filter p) ∧
          row = mkRow df.cols resultCols idCol rows) ∧
    (∀ (df : DataFrame) (sel : List String) (thr : String → ThresholdConfig)
        (types : String → ColType) (idCol : String) (m : ℕ)
        (aggOk : List (String × SqlCond) → Bool) (out : List ResultRowE)
        (row : ResultRowE),
        analyzeDb df sel thr types idCol m aggOk = some out → row ∈ out →
        ∃ rows, (∃ p, rows = df.rows.filter p) ∧ row = mkRowDb idCol rows) := by
  refine ⟨?_, ?_, ?_, ?_, ?_⟩
  · intro cols resultCols idCol rows
    refine ⟨?_, ?_, ?_, ?_⟩
    · simp only [mkRow]
      split
      · rfl
      · rename_i hle
        rw [List.take_of_length_le]
        rw [List.length_map]
        omega
    · simp only [mkRow]
      split
      · rename_i hgt
        simp [List.length_take, List.length_map]
      · rename_i hle
        rw [List.length_map]
        omega
    · intro hgt
      simp [mkRow, hgt]
    · intro hle
      simp only [mkRow]
      rw [if_neg (by omega)]
  · intro idCol rows s hs
    refine ⟨?_, ?_, ?_⟩
    · simp only [mkRowDbWith]
      rw [List.length_map, hs.1]
      omega
    · intro hgt
      simp [mkRowDbWith, hgt]
    · intro hle
      simp only [mkRowDbWith]
      rw [if_neg (by omega)]
  · intro idCol rows
    refine ⟨rfl, ?_, ?_⟩
    · rw [List.length_take]
    · exact (List.take_sublist 20 rows).subperm
  · intro df sel thr types idCol resultCols m out row h hr
    rcases analyze_mem h hr with ⟨cs, hcs⟩
    rcases emitTab_some hcs with ⟨hrow, _, _⟩
    exact ⟨df.rows.filter fun r => cs.all (itemHolds types r), ⟨_, rfl⟩, hrow⟩
  · intro df sel thr types idCol m aggOk out row h hr
    rcases analyzeDb_mem h hr with ⟨cs, hcs⟩
    rcases emitDb_some hcs with ⟨hrow, _, _⟩
    exact ⟨df.rows.filter fun r => cs.all (sqlHolds r), ⟨_, rfl⟩, hrow⟩

/-- C8 witness: the bound and overflow facts applied at a concrete store
reply (the full stored-order reply for the three-row snapshot). -/
theorem c8_id_sample_witness :
    (mkRowDbWith "id" dfEx.rows dfEx.rows).ids.length ≤ 20 ∧
    (mkRowDbWith "id" dfEx.rows dfEx.rows).more = none :=
  have h := c8_id_sample.2.1 "id" dfEx.rows dfEx.rows ⟨by decide, List.Subperm.refl _⟩
  ⟨h.1, h.2.2 (by decide)⟩

/-- C8 counterexample (to the query-backend order/determinism part of the
original claim): on the two-row snapshot, both the stored-order reply and
its reversal are replies the ORDER-BY-less `LIMIT 20` id query admits, and
they yield different identifier samples — the program does not establish
row-order preservation or determinism for the query backend's sample. -/
theorem c8_db_sample_not_determined :
    LimitSample dfB.rows dfB.rows ∧
    LimitSample dfB.rows dfB.rows.reverse ∧
    (mkRowDbWith "id" dfB.rows dfB.rows).ids ≠
      (mkRowDbWith "id" dfB.rows dfB.rows.reverse).ids := by
  refine ⟨⟨by decide, List.Subperm.refl _⟩,
    ⟨by decide, (List.reverse_perm dfB.rows).subperm⟩, by decide⟩

/-- C9 (as amended): when a combination's queries fail, only that
combination is dropped — the run still returns, and the surviving result
rows are exactly those of the failure-free run with the failing
combinations' rows removed (a sublist). -/
theorem c9_skip_continue :
    (∀ (df : DataFrame) (sel : List String) (thr : String → ThresholdConfig)
        (types : String → ColType) (idCol : String) (m : ℕ)
        (o1 o2 : List (String × SqlCond) → Bool) (out1 out2 : List ResultRowE),
        (∀ cs, o1 cs = true → o2 cs = true) →
        analyzeDb df sel thr types idCol m o1 = some out1 →
        analyzeDb df sel thr types idCol m o2 = some out2 →
        List.Sublist out1 out2) ∧
    (∀ (df : DataFrame) (sel : List String) (thr : String → ThresholdConfig)
        (types : String → ColType) (idCol : String) (m : ℕ)
        (o : List (String × SqlCond) → Bool),
        (analyzeDb df sel thr types idCol m o).isSome =
          (analyzeDb df sel thr types idCol m fun _ => true).isSome) := by
  constructor
  · intro df sel thr types idCol m o1 o2 out1 out2 himp h1 h2
    unfold analyzeDb at h1 h2
    by_cases hcond :
        ((allCombos sel).all fun combo => (dbVariations types thr combo).isSome) = true
    · rw [if_pos hcond] at h1 h2
      injection h1 with e1
      injection h2 with e2
      subst e1; subst e2
      apply flatMap_sublist
      intro combo _
      exact filterMap_sublist _ _ _ fun cs _ b hb => emitDb_oracle_mono himp cs b hb
    · rw [if_neg hcond] at h1
      cases h1
  · intro df sel thr types idCol m o
    unfold analyzeDb
    by_cases hc :
        ((allCombos sel).all fun combo => (dbVariations types thr combo).isSome) = true
    · rw [if_pos hc, if_pos hc]
      rfl
    · rw [if_neg hc, if_neg hc]

/-- C9 witness: on the concrete snapshot, failing the `"A" < 2` combination
drops exactly that combination's row — the other combination still
appears. -/
theorem c9_skip_continue_witness :
    List.Sublist ([⟨2, [], ["b", "c"], none⟩] : List ResultRowE)
      [⟨2, [], ["b", "c"], none⟩, ⟨1, [], ["a"], none⟩] :=
  c9_skip_continue.1 dfEx ["A"] thrEx typesNum "id" 1 failLt (fun _ => true) _ _
    (fun _ _ => rfl) (by decide) (by decide)

/-- C9 counterexample (to the record-keeping part of the claim): a run in
which the `"A" < 2` combination's queries fail is indistinguishable from the
failure-free run in which that combination merely falls below the
minimum-row threshold — the returned table is identical, so the run records
no skipped-combination count. -/
theorem c9_no_skip_count :
    analyzeDb dfEx ["A"] thrEx typesNum "id" 2 failLt =
      analyzeDb dfEx ["A"] thrEx typesNum "id" 2 (fun _ => true) ∧
    failLt [("A", SqlCond.cmpS NumOp.lt 2)] = false := by
  constructor
  · decide
  · decide

/-- C1 (code-bug evidence): on a numeric column configured with
`multiple_greater_than` over the single value 2, the tabular backend
generates the variant `A > 2` and completes the run with one result row,
while `generate_sql_condition` falls into the value-threshold fallback and
dies on the missing `"value"` key, so the query backend returns nothing —
the two backends cannot agree on this configuration. -/
theorem c1_backend_divergence :
    genTab ColType.numeric (ThresholdConfig.multipleGreaterThan [2]) =
      GenResult.vars [CondItem.cmp NumOp.gt 2] ∧
    generate_sql_condition ColType.numeric (ThresholdConfig.multipleGreaterThan [2]) =
      none ∧
    analyze dfEx ["A"] thrMgt typesNum "id" ["A"] 1 =
      some [⟨1, [("A", 1)], ["c"], none⟩] ∧
    analyzeDb dfEx ["A"] thrMgt typesNum "id" 1 (fun _ => true) = none := by
  refine ⟨rfl, rfl, by decide, by decide⟩

/-- C3 counterexample: with an unrecognized configuration kind on the
selected categorical column `B`, the run does not fail — it evaluates and
returns a result row in which `B` is silently left unconditioned (all rows
match). -/
theorem c3_unknown_kind_run_succeeds :
    analyze dfB ["B"] thrBogus typesCat "id" [] 1 =
      some [⟨2, [], ["r1", "r2"], none⟩] := by
  decide

/-- C3 (as amended): an unrecognized configuration kind raises no
configuration error.  On a categorical column the tabular generator appends
no variant list (the column silently drops out of every combination that
should condition it) while the SQL generator returns an empty condition
list; on a numeric column both generators die with KeyError on the missing
`"value"` key — and an unrecognized kind that does carry a `"value"` key is
silently treated as a custom value threshold. -/
theorem c3_unknown_kind_silent :
    (∀ t : String,
        genTab ColType.categorical (ThresholdConfig.otherKind t) = GenResult.skipped) ∧
    (∀ t : String,
        genTab ColType.numeric (ThresholdConfig.otherKind t) = GenResult.crash) ∧
    (∀ t : String,
        generate_sql_condition ColType.categorical (ThresholdConfig.otherKind t) =
          some []) ∧
    (∀ t : String,
        generate_sql_condition ColType.numeric (ThresholdConfig.otherKind t) = none) ∧
    (∀ (t : String) (v : ℚ),
        genTab ColType.numeric (ThresholdConfig.valueThreshold t v) =
          GenResult.vars [CondItem.cmp NumOp.ge v, CondItem.cmp NumOp.lt v]) :=
  ⟨fun _ => rfl, fun _ => rfl, fun _ => rfl, fun _ => rfl, fun _ _ => rfl⟩

/-- C2: for a numeric column whose range configuration splits `[min, max]`
into N divisions, the variant generator produces exactly N variants, variant
i selecting `start_i <= v < end_i` except the last, which selects
`start <= v <= max`; every value of `[min, max]` satisfies exactly one
variant, and a value on an internal boundary satisfies only the upper
division's variant; the query backend generates N conditions with identical
boundary rules. -/
theorem c2_range_partition :
    ∀ (minV maxV : ℚ) (n : ℕ), 1 ≤ n → minV ≤ maxV →
    ∃ l : List CondItem,
      genTab ColType.numeric (ThresholdConfig.range (makeRanges minV maxV n)) =
        GenResult.vars l ∧
      l.length = n ∧
      (∀ i, i < n → ∀ x : ℚ,
        numItemHolds (l.getD i (CondItem.cmp NumOp.ge 0)) (some x) = true ↔
          DivHolds minV maxV n i x) ∧
      (∀ x : ℚ, minV ≤ x → x ≤ maxV →
        ∃ i, i < n ∧
          numItemHolds (l.getD i (CondItem.cmp NumOp.ge 0)) (some x) = true ∧
          ∀ j, j < n →
            numItemHolds (l.getD j (CondItem.cmp NumOp.ge 0)) (some x) = true →
            j = i) ∧
      (minV < maxV → ∀ i, 1 ≤ i → i < n →
        numItemHolds (l.getD i (CondItem.cmp NumOp.ge 0))
          (some (minV + (i : ℚ) * ((maxV - minV) / (n : ℚ)))) = true) ∧
      ∃ sl : List SqlCond,
        generate_sql_condition ColType.numeric
            (ThresholdConfig.range (makeRanges minV maxV n)) = some sl ∧
        sl.length = n ∧
        (∀ i, i < n → ∀ (r : Row) (c : String),
          sqlHolds r (c, sl.getD i (SqlCond.cmpS NumOp.ge 0)) =
            numItemHolds (l.getD i (CondItem.cmp NumOp.ge 0)) (getNum r c)) := by
  intro minV maxV n hn hle
  have hlen := makeRanges_length minV maxV n
  refine ⟨_, rfl, ?_, ?_, ?_, ?_, ?_⟩
  · simp [hlen]
  · exact fun i hi x => rangeVariant_holds_iff minV maxV n hn i hi x
  · intro x hx1 hx2
    rcases divHolds_unique minV maxV n hn hle x hx1 hx2 with ⟨i, hi, hDi, huniq⟩
    refine ⟨i, hi, (rangeVariant_holds_iff minV maxV n hn i hi x).2 hDi, ?_⟩
    intro j hj hjholds
    exact huniq j hj ((rangeVariant_holds_iff minV maxV n hn j hj x).1 hjholds)
  · intro hlt i h1 hi
    exact (rangeVariant_holds_iff minV maxV n hn i hi _).2
      (divHolds_boundary minV maxV n hn hlt i h1 hi)
  · refine ⟨_, rfl, ?_, ?_⟩
    · simp [hlen]
    · intro i hi r c
      rw [sqlRangeItems_getD _ i (by omega), rangeItems_getD _ i (by omega), hlen]
      cases hnum : getNum r c with
      | none => simp [sqlHolds, numItemHolds, hnum]
      | some x =>
        by_cases hin : i + 1 = n
        · simp [sqlHolds, numItemHolds, hnum, hin]
        · simp [sqlHolds, numItemHolds, hnum, hin]

/-- C2 witness: the partition statement instantiated at the division of
`[0, 10]` into 2 ranges. -/
theorem c2_range_partition_witness :
    ∃ l : List CondItem,
      genTab ColType.numeric (ThresholdConfig.range (makeRanges 0 10 2)) =
        GenResult.vars l ∧ l.length = 2 := by
  rcases c2_range_partition 0 10 2 (by omega) (by norm_num) with ⟨l, h1, h2, _⟩
  exact ⟨l, h1, h2⟩

/-- C7: a numeric `multiple_conditions_or` configuration over `k` conditions
produces exactly `k + 1` variants — one per individual condition plus the
OR-group last — the OR-group's row mask is the logical OR of the individual
conditions' masks, and on the spec's example (values 0..10, conditions
`> 5` and `< 1`) the three variants are evaluated as three separate
combinations yielding three result rows. -/
theorem c7_or_variants :
    (∀ conds : List (NumOp × ℚ),
        genTab ColType.numeric (ThresholdConfig.multipleConditionsOr conds) =
          GenResult.vars
            ((conds.map fun c => CondItem.cmp c.1 c.2) ++ [CondItem.orGroup conds]) ∧
        ((conds.map fun c => CondItem.cmp c.1 c.2) ++ [CondItem.orGroup conds]).length =
          conds.length + 1) ∧
    (∀ (conds : List (NumOp × ℚ)) (ov : Option ℚ),
        numItemHolds (CondItem.orGroup conds) ov = true ↔
          ∃ c ∈ conds, orCmpHolds c.1 c.2 ov = true) ∧
    analyze dfC7 ["A"] thrOr typesNum "id" ["A"] 1 =
      some [⟨5, [("A", 1)], ["r6", "r7", "r8", "r9", "r10"], none⟩,
            ⟨1, [("A", 1)], ["r0"], none⟩,
            ⟨6, [("A", 1)], ["r0", "r6", "r7", "r8", "r9", "r10"], none⟩] := by
  refine ⟨?_, ?_, by decide⟩
  · intro conds
    refine ⟨rfl, ?_⟩
    simp
  · intro conds ov
    simp [numItemHolds, List.any_eq_true]

end PatternRec
